import Mathlib

/-!
Verification of the DeepSeek streaming plugin (Rust sources under src/).

Rust strings are modelled as lists of characters (Chars).  The streaming
session of src/src/api/client.rs (send_streaming_request, duplicated in
src/src/lib.rs with identical SSE semantics) is embedded as a pure function
from a SessionInput record - holding the configuration, the HTTP response,
the already UTF-8-decoded byte chunks, and the three sink callbacks modelled
as oracles - to the ordered trace of sink invocations plus the returned
result.  Logging is not modelled; transport errors while pulling chunks and
header construction failures are out of scope of the claims and are not
modelled either.
-/

abbrev Chars := List Char

/-- Models Rust char::is_whitespace for the ASCII whitespace characters that
the claims exercise (space, tab, newline, carriage return). -/
def isWsChar (c : Char) : Bool :=
  c = ' ' || c = '\t' || c = '\n' || c = '\r'

/-- Models Rust s.trim().is_empty(): true iff every character is whitespace. -/
def trimIsEmpty (s : Chars) : Bool :=
  s.all isWsChar

/-- Prepends a character to the first segment of a segment list. -/
def consHead (c : Char) : List Chars → List Chars
  | [] => [[c]]
  | l :: ls => (c :: l) :: ls

/-- Single-character automaton behind splitSep.  The pending flag records
that a newline has been consumed which may begin a separator. -/
def ssAux : Chars → Bool → List Chars
  | [], pending => [if pending then ['\n'] else []]
  | c :: rest, pending =>
    if pending then
      if c = '\n' then [] :: ssAux rest false
      else consHead '\n' (consHead c (ssAux rest false))
    else
      if c = '\n' then ssAux rest true
      else consHead c (ssAux rest false)

/-- Models Rust chunk_str.split("\n\n") (client.rs line 110 / lib.rs line
315): splits at leftmost non-overlapping occurrences of two newlines. -/
def splitSep (s : Chars) : List Chars :=
  ssAux s false

/-- The "data: " line marker of the SSE format. -/
def dataMark : Chars := ['d', 'a', 't', 'a', ':', ' ']

/-- Models line.strip_prefix("data: ") (lib.rs line 316), equivalently the
starts_with("data: ") test plus the byte slice line[6..] (client.rs lines
111-112). -/
def dropDataMark : Chars → Option Chars
  | 'd' :: 'a' :: 't' :: 'a' :: ':' :: ' ' :: rest => some rest
  | _ => none

/-- The end-of-stream sentinel payload "[DONE]" (client.rs line 115). -/
def doneMark : Chars := ['[', 'D', 'O', 'N', 'E', ']']

/-- The StreamError type of the plugin_interfaces crate as used by client.rs:
the distinguished cancellation kind versus every other kind, the latter
carrying its display text. -/
inductive StreamError where
  | streamCancelled
  | other (msg : Chars)
deriving DecidableEq

/-- Message delta of the streaming response (src/src/api/types.rs). -/
structure Delta where
  content : Option Chars
deriving DecidableEq

/-- One choice of the streaming response (src/src/api/types.rs). -/
structure Choice where
  delta : Delta
deriving DecidableEq

/-- One parsed streaming response chunk (src/src/api/types.rs). -/
structure ChatCompletionChunk where
  choices : List Choice
deriving DecidableEq

/-- A request message record (src/src/api/types.rs). -/
structure Message where
  role : Chars
  content : Chars
deriving DecidableEq

/-- One sink invocation, in order of occurrence: stream start, a streamed
chunk of text, or stream end with success flag and optional error text. -/
inductive SinkCall where
  | start
  | chunk (text : Chars) (isFinal : Bool)
  | streamEnd (success : Bool) (error : Option Chars)
deriving DecidableEq

/-- The value send_streaming_request returns: Ok(()) or Err with the
error's display text. -/
inductive SessionResult where
  | ok
  | fail (msg : Chars)
deriving DecidableEq

/-- Outcome of processing part of the stream: continue the loop with the
updated has_content flag and sink-call counter, or stop with a result. -/
inductive LoopOutcome where
  | next (hasContent : Bool) (calls : Nat)
  | halt (res : SessionResult)
deriving DecidableEq

/-- The streamChunk sink callback modelled as an oracle: the response to the
n-th chunk delivery (none = Ok, some e = Err e). -/
abbrev Sink := Nat → Option StreamError

def errorTag : Chars := "Error: ".toList
def apiKeyUnsetMsg : Chars := "API Key 未设置".toList
def clientUninitMsg : Chars := "HTTP 客户端未初始化".toList
def httpFailTag : Chars := "API 请求失败: ".toList
def startFailTag : Chars := "启动流式传输失败: ".toList
def noReplyMsg : Chars := "未收到有效回复".toList

/-- Models the inner for-loop over chunk_data.choices (client.rs lines
124-154): deliver each Some content to the sink, setting has_content, with
the cancellation/error policy of lines 130-151. -/
def procChoices (sink : Sink) : List Choice → Bool → Nat → List SinkCall × LoopOutcome
  | [], hc, n => ([], .next hc n)
  | c :: rest, hc, n =>
    match c.delta.content with
    | none => procChoices sink rest hc n
    | some text =>
      match sink n with
      | none =>
        let r := procChoices sink rest true (n + 1)
        (SinkCall.chunk text false :: r.1, r.2)
      | some StreamError.streamCancelled =>
        ([SinkCall.chunk text false], .halt .ok)
      | some (StreamError.other m) =>
        ([SinkCall.chunk text false,
          SinkCall.streamEnd false (some (errorTag ++ m))], .halt (.fail m))

/-- Models the body of the for-loop over split segments (client.rs lines
111-160): the "data: " filter, the "[DONE]" sentinel check, and JSON
parsing where a failed parse is skipped. -/
def procLine (parse : Chars → Option ChatCompletionChunk) (sink : Sink)
    (line : Chars) (hc : Bool) (n : Nat) : List SinkCall × LoopOutcome :=
  match dropDataMark line with
  | none => ([], .next hc n)
  | some data =>
    if data = doneMark then ([SinkCall.streamEnd true none], .halt .ok)
    else
      match parse data with
      | some cd => procChoices sink cd.choices hc n
      | none => ([], .next hc n)

/-- Models the for-loop over chunk_str.split("\n\n") (client.rs line 110),
with the early returns of the loop body propagated. -/
def procSegs (parse : Chars → Option ChatCompletionChunk) (sink : Sink) :
    List Chars → Bool → Nat → List SinkCall × LoopOutcome
  | [], hc, n => ([], .next hc n)
  | l :: rest, hc, n =>
    match procLine parse sink l hc n with
    | (calls, .next hc2 n2) =>
      let r := procSegs parse sink rest hc2 n2
      (calls ++ r.1, r.2)
    | (calls, .halt res) => (calls, .halt res)

/-- Models the while-let loop over the byte stream (client.rs lines
105-162): each chunk is split on the separator independently - no buffer is
carried from one chunk to the next. -/
def procChunks (parse : Chars → Option ChatCompletionChunk) (sink : Sink) :
    List Chars → Bool → Nat → List SinkCall × LoopOutcome
  | [], hc, n => ([], .next hc n)
  | ch :: rest, hc, n =>
    match procSegs parse sink (splitSep ch) hc n with
    | (calls, .next hc2 n2) =>
      let r := procChunks parse sink rest hc2 n2
      (calls ++ r.1, r.2)
    | (calls, .halt res) => (calls, .halt res)

/-- True iff an HTTP status is 2xx (reqwest StatusCode::is_success). -/
def statusIsSuccess (s : Nat) : Bool :=
  200 ≤ s && s < 300

/-- All the inputs send_streaming_request consumes: configuration state,
the HTTP response (status, body text, and the UTF-8-decoded byte chunks of
the streaming body), the streamStart result, the streamChunk oracle, and
the JSON chunk parser (serde_json::from_str::<ChatCompletionChunk>). -/
structure SessionInput where
  apiKey : Chars
  clientInitialized : Bool
  status : Nat
  body : Chars
  chunks : List Chars
  startResult : Except Chars Chars
  sink : Sink
  parse : Chars → Option ChatCompletionChunk

/-- The trailing streamEnd of the end-of-stream path (client.rs lines
164-168), driven by has_content. -/
def finishCalls (hc : Bool) : List SinkCall :=
  [SinkCall.streamEnd hc (if hc then none else some noReplyMsg)]

/-- Embedding of ApiClient::send_streaming_request (src/src/api/client.rs
lines 33-171; the copy in src/src/lib.rs lines 245-375 has the same SSE
semantics): returns the ordered list of sink invocations and the returned
result. -/
def sendStreamingRequest (inp : SessionInput) : List SinkCall × SessionResult :=
  if trimIsEmpty inp.apiKey then ([], .fail apiKeyUnsetMsg)
  else if !inp.clientInitialized then ([], .fail clientUninitMsg)
  else if !statusIsSuccess inp.status then ([], .fail (httpFailTag ++ inp.body))
  else
    match inp.startResult with
    | .error e => ([], .fail (startFailTag ++ e))
    | .ok _ =>
      match procChunks inp.parse inp.sink inp.chunks false 0 with
      | (calls, .halt res) => (SinkCall.start :: calls, res)
      | (calls, .next hc _) => (SinkCall.start :: (calls ++ finishCalls hc), .ok)

/-- A decoded SSE event: an incremental text delta or the terminal
sentinel.  This is the specification-level view of the decode pipeline;
the lemmas below prove the loop of send_streaming_request equal to a fold
over this event sequence. -/
inductive SSEEvent where
  | delta (text : Chars)
  | done
deriving DecidableEq

/-- The Some contents of the choices of a parsed chunk, in order. -/
def choiceTexts (cs : List Choice) : List Chars :=
  cs.filterMap (fun c => c.delta.content)

/-- The events one split segment contributes: nothing without the "data: "
marker, the sentinel for "[DONE]", one delta per Some content of a parsed
payload, nothing for an unparsable payload. -/
def lineEvents (parse : Chars → Option ChatCompletionChunk) (line : Chars) :
    List SSEEvent :=
  match dropDataMark line with
  | none => []
  | some data =>
    if data = doneMark then [SSEEvent.done]
    else
      match parse data with
      | some cd => (choiceTexts cd.choices).map SSEEvent.delta
      | none => []

/-- All events one raw chunk contributes, via the per-chunk split. -/
def chunkEvents (parse : Chars → Option ChatCompletionChunk) (ch : Chars) :
    List SSEEvent :=
  (splitSep ch).flatMap (lineEvents parse)

/-- All events of the whole chunk sequence, in arrival order. -/
def streamEvents (parse : Chars → Option ChatCompletionChunk)
    (chunks : List Chars) : List SSEEvent :=
  chunks.flatMap (chunkEvents parse)

/-- The session loop as a fold over the decoded event sequence:
delivery, cancellation/error policy, and the sentinel cut. -/
def runEvents (sink : Sink) : List SSEEvent → Bool → Nat → List SinkCall × LoopOutcome
  | [], hc, n => ([], .next hc n)
  | SSEEvent.done :: _, _, _ => ([SinkCall.streamEnd true none], .halt .ok)
  | SSEEvent.delta t :: rest, _, n =>
    match sink n with
    | none =>
      let r := runEvents sink rest true (n + 1)
      (SinkCall.chunk t false :: r.1, r.2)
    | some StreamError.streamCancelled => ([SinkCall.chunk t false], .halt .ok)
    | some (StreamError.other m) =>
      ([SinkCall.chunk t false,
        SinkCall.streamEnd false (some (errorTag ++ m))], .halt (.fail m))

theorem runEvents_append (sink : Sink) (es₁ es₂ : List SSEEvent) (hc : Bool) (n : Nat) :
    runEvents sink (es₁ ++ es₂) hc n =
      match runEvents sink es₁ hc n with
      | (calls, .next hc2 n2) =>
        let r := runEvents sink es₂ hc2 n2
        (calls ++ r.1, r.2)
      | (calls, .halt res) => (calls, .halt res) := by
  induction es₁ generalizing hc n with
  | nil => simp [runEvents]
  | cons e rest ih =>
    cases e with
    | done => simp [runEvents]
    | delta t =>
      simp only [List.cons_append, runEvents, List.append_eq]
      cases hsink : sink n with
      | none =>
        rw [ih]
        cases hrest : runEvents sink rest true (n + 1) with
        | mk calls out => cases out <;> simp
      | some e2 => cases e2 <;> simp

theorem procChoices_eq_run (sink : Sink) (cs : List Choice) (hc : Bool) (n : Nat) :
    procChoices sink cs hc n =
      runEvents sink ((choiceTexts cs).map SSEEvent.delta) hc n := by
  induction cs generalizing hc n with
  | nil => simp [procChoices, choiceTexts, runEvents]
  | cons c rest ih =>
    cases hcontent : c.delta.content with
    | none => simp [procChoices, choiceTexts, hcontent, ih]
    | some t =>
      simp only [procChoices, hcontent, choiceTexts, List.filterMap_cons, List.map_cons,
        runEvents]
      cases hsink : sink n with
      | none => simp [ih, choiceTexts]
      | some e2 => cases e2 <;> simp

theorem procLine_eq_run (parse : Chars → Option ChatCompletionChunk) (sink : Sink)
    (line : Chars) (hc : Bool) (n : Nat) :
    procLine parse sink line hc n = runEvents sink (lineEvents parse line) hc n := by
  unfold procLine lineEvents
  cases dropDataMark line with
  | none => simp [runEvents]
  | some data =>
    by_cases hdone : data = doneMark
    · simp [hdone, runEvents]
    · simp only [hdone, if_false]
      cases parse data with
      | none => simp [runEvents]
      | some cd => simp [procChoices_eq_run]

theorem procSegs_eq_run (parse : Chars → Option ChatCompletionChunk) (sink : Sink)
    (ls : List Chars) (hc : Bool) (n : Nat) :
    procSegs parse sink ls hc n =
      runEvents sink (ls.flatMap (lineEvents parse)) hc n := by
  induction ls generalizing hc n with
  | nil => simp [procSegs, runEvents]
  | cons l rest ih =>
    simp only [procSegs, List.flatMap_cons, runEvents_append, procLine_eq_run]
    cases hline : runEvents sink (lineEvents parse l) hc n with
    | mk calls out => cases out <;> simp [ih]

theorem procChunks_eq_run (parse : Chars → Option ChatCompletionChunk) (sink : Sink)
    (chunks : List Chars) (hc : Bool) (n : Nat) :
    procChunks parse sink chunks hc n =
      runEvents sink (streamEvents parse chunks) hc n := by
  induction chunks generalizing hc n with
  | nil => simp [procChunks, streamEvents, runEvents]
  | cons ch rest ih =>
    simp only [procChunks, streamEvents, List.flatMap_cons, runEvents_append,
      procSegs_eq_run, chunkEvents]
    cases hch : runEvents sink ((splitSep ch).flatMap (lineEvents parse)) hc n with
    | mk calls out =>
      cases out <;> simp [hch, ih, streamEvents, chunkEvents]

/-- The whole session, phrased over the decoded event sequence. -/
def sessionSpec (inp : SessionInput) : List SinkCall × SessionResult :=
  if trimIsEmpty inp.apiKey then ([], .fail apiKeyUnsetMsg)
  else if !inp.clientInitialized then ([], .fail clientUninitMsg)
  else if !statusIsSuccess inp.status then ([], .fail (httpFailTag ++ inp.body))
  else
    match inp.startResult with
    | .error e => ([], .fail (startFailTag ++ e))
    | .ok _ =>
      match runEvents inp.sink (streamEvents inp.parse inp.chunks) false 0 with
      | (calls, .halt res) => (SinkCall.start :: calls, res)
      | (calls, .next hc _) => (SinkCall.start :: (calls ++ finishCalls hc), .ok)

theorem send_eq_spec (inp : SessionInput) :
    sendStreamingRequest inp = sessionSpec inp := by
  unfold sendStreamingRequest sessionSpec
  rw [procChunks_eq_run]

theorem sessionSpec_open (inp : SessionInput)
    (hkey : trimIsEmpty inp.apiKey = false) (hcl : inp.clientInitialized = true)
    (hst : statusIsSuccess inp.status = true) (sid : Chars)
    (hstart : inp.startResult = .ok sid) :
    sendStreamingRequest inp =
      match runEvents inp.sink (streamEvents inp.parse inp.chunks) false 0 with
      | (calls, .halt res) => (SinkCall.start :: calls, res)
      | (calls, .next hc _) => (SinkCall.start :: (calls ++ finishCalls hc), .ok) := by
  rw [send_eq_spec]
  unfold sessionSpec
  simp [hkey, hcl, hst, hstart]

/-! ### The SSE byte-stream encoding of a payload sequence -/

/-- The SSE separator, two newlines. -/
def sseSep : Chars := ['\n', '\n']

/-- One complete SSE frame for a payload: "data: " ++ payload ++ "\n\n". -/
def frameOf (p : Chars) : Chars := dataMark ++ p ++ sseSep

/-- The byte-stream encoding of a payload sequence: its frames in order. -/
def framesOf (ps : List Chars) : Chars := (ps.map frameOf).flatten

/-- The events a single framed payload contributes. -/
def payloadEvents (parse : Chars → Option ChatCompletionChunk) (p : Chars) :
    List SSEEvent :=
  lineEvents parse (dataMark ++ p)

theorem dropDataMark_mark (p : Chars) : dropDataMark (dataMark ++ p) = some p := rfl

theorem lineEvents_nil (parse : Chars → Option ChatCompletionChunk) :
    lineEvents parse [] = [] := rfl

theorem ssAux_no_nl (xs : Chars) (h : ('\n' : Char) ∉ xs) :
    ssAux xs false = [xs] := by
  induction xs with
  | nil => rfl
  | cons c rest ih =>
    have hc : ¬(c = '\n') := fun hh => h (hh ▸ List.mem_cons_self c rest)
    have hr : ('\n' : Char) ∉ rest := fun hh => h (List.mem_cons_of_mem c hh)
    simp [ssAux, hc, consHead, ih hr]

theorem ssAux_sep (xs ys : Chars) (h : ('\n' : Char) ∉ xs) :
    ssAux (xs ++ '\n' :: '\n' :: ys) false = xs :: ssAux ys false := by
  induction xs with
  | nil => simp [ssAux]
  | cons c rest ih =>
    have hc : ¬(c = '\n') := fun hh => h (hh ▸ List.mem_cons_self c rest)
    have hr : ('\n' : Char) ∉ rest := fun hh => h (List.mem_cons_of_mem c hh)
    simp [ssAux, hc, consHead, ih hr]

theorem splitSep_frames (ps : List Chars) (h : ∀ p ∈ ps, ('\n' : Char) ∉ p) :
    splitSep (framesOf ps) = ps.map (fun p => dataMark ++ p) ++ [[]] := by
  induction ps with
  | nil => rfl
  | cons p rest ih =>
    have hp : ('\n' : Char) ∉ dataMark ++ p := by
      intro hm
      rcases List.mem_append.mp hm with hm | hm
      · simp [dataMark] at hm
      · exact h p (List.mem_cons_self p rest) hm
    have hcat : framesOf (p :: rest) = (dataMark ++ p) ++ '\n' :: '\n' :: framesOf rest := by
      simp [framesOf, frameOf, sseSep]
    unfold splitSep
    rw [hcat, ssAux_sep _ _ hp]
    have ih2 := ih (fun q hq => h q (List.mem_cons_of_mem p hq))
    unfold splitSep at ih2
    simp [ih2]

theorem chunkEvents_frames (parse : Chars → Option ChatCompletionChunk)
    (ps : List Chars) (h : ∀ p ∈ ps, ('\n' : Char) ∉ p) :
    chunkEvents parse (framesOf ps) = ps.flatMap (payloadEvents parse) := by
  unfold chunkEvents
  rw [splitSep_frames ps h]
  clear h
  induction ps with
  | nil => rfl
  | cons p rest ih =>
    simp only [List.map_cons, List.cons_append, List.flatMap_cons]
    rw [ih]
    rfl

theorem streamEvents_frames (parse : Chars → Option ChatCompletionChunk)
    (pss : List (List Chars)) (h : ∀ p ∈ pss.flatten, ('\n' : Char) ∉ p) :
    streamEvents parse (pss.map framesOf) =
      pss.flatten.flatMap (payloadEvents parse) := by
  induction pss with
  | nil => rfl
  | cons ps rest ih =>
    have h1 : ∀ p ∈ ps, ('\n' : Char) ∉ p := fun p hp =>
      h p (by rw [List.flatten_cons]; exact List.mem_append_left _ hp)
    have h2 : ∀ p ∈ rest.flatten, ('\n' : Char) ∉ p := fun p hp =>
      h p (by rw [List.flatten_cons]; exact List.mem_append_right _ hp)
    have e2 := ih h2
    unfold streamEvents at e2
    simp only [List.map_cons, streamEvents, List.flatMap_cons, List.flatten_cons,
      List.flatMap_append]
    rw [chunkEvents_frames parse ps h1, e2]

/-! ### Behaviour of the event fold -/

/-- The delta texts of an event list, ignoring sentinels. -/
def deltaTexts (es : List SSEEvent) : List Chars :=
  es.filterMap (fun e =>
    match e with
    | .delta t => some t
    | .done => none)

/-- The delta texts strictly before the first sentinel. -/
def deltasUpTo : List SSEEvent → List Chars
  | [] => []
  | SSEEvent.done :: _ => []
  | SSEEvent.delta t :: rest => t :: deltasUpTo rest

/-- Shorthand for a non-final chunk delivery. -/
def chunkCall (t : Chars) : SinkCall := SinkCall.chunk t false

/-- Trailing sink calls after a failed delivery, by error kind (client.rs
lines 130-151): nothing on cancellation, a failure streamEnd otherwise. -/
def errTailCalls : StreamError → List SinkCall
  | .streamCancelled => []
  | .other m => [SinkCall.streamEnd false (some (errorTag ++ m))]

/-- Result of the session after a failed delivery, by error kind: Ok on
cancellation, the error itself otherwise. -/
def errResult : StreamError → SessionResult
  | .streamCancelled => .ok
  | .other m => .fail m

theorem runEvents_ok (sink : Sink) (es : List SSEEvent)
    (hnd : SSEEvent.done ∉ es) (hsink : ∀ j, sink j = none) (hc : Bool) (n : Nat) :
    ∃ m, runEvents sink es hc n =
      ((deltaTexts es).map chunkCall,
       .next (hc || !(deltaTexts es).isEmpty) m) := by
  induction es generalizing hc n with
  | nil => exact ⟨n, by simp [runEvents, deltaTexts]⟩
  | cons e rest ih =>
    cases e with
    | done => exact (hnd (List.mem_cons_self SSEEvent.done rest)).elim
    | delta t =>
      have hrest : SSEEvent.done ∉ rest := fun hh => hnd (List.mem_cons_of_mem _ hh)
      obtain ⟨m, hm⟩ := ih hrest true (n + 1)
      exact ⟨m, by simp [runEvents, hsink n, deltaTexts, chunkCall, hm]⟩

theorem runEvents_done (sink : Sink) (es₁ es₂ : List SSEEvent)
    (hnd : SSEEvent.done ∉ es₁)
    (hc : Bool) (n : Nat)
    (hsink : ∀ j, j < (deltaTexts es₁).length → sink (n + j) = none) :
    runEvents sink (es₁ ++ SSEEvent.done :: es₂) hc n =
      ((deltaTexts es₁).map chunkCall ++ [SinkCall.streamEnd true none], .halt .ok) := by
  induction es₁ generalizing hc n with
  | nil => simp [runEvents, deltaTexts]
  | cons e rest ih =>
    cases e with
    | done => exact (hnd (List.mem_cons_self SSEEvent.done rest)).elim
    | delta t =>
      have hrest : SSEEvent.done ∉ rest := fun hh => hnd (List.mem_cons_of_mem _ hh)
      have h0 : sink n = none := by
        have := hsink 0 (by simp [deltaTexts])
        simpa using this
      have hshift : ∀ j, j < (deltaTexts rest).length → sink (n + 1 + j) = none := by
        intro j hj
        have hcons : deltaTexts (SSEEvent.delta t :: rest) = t :: deltaTexts rest := rfl
        have := hsink (j + 1) (by rw [hcons]; simpa using Nat.succ_lt_succ hj)
        rwa [show n + (j + 1) = n + 1 + j by omega] at this
      simp [runEvents, h0, deltaTexts, chunkCall, ih hrest true (n + 1) hshift]

/-! ### A model of the JSON layer (serde_json)

serde_json::from_str and serde_json::to_string are third-party library
functions; they are modelled here by an executable JSON value type, a
parser and a renderer.  The model covers objects, arrays, strings with the
common escapes, integers, booleans and null - everything the provider's
chunk schema and the Message record exercise.  Claim theorems that depend
on parsing quantify over an arbitrary parse function, so they hold for the
real serde_json as well; this concrete model instantiates their witnesses. -/

inductive Json where
  | null
  | bool (b : Bool)
  | num (n : Int)
  | str (s : Chars)
  | arr (xs : List Json)
  | obj (fields : List (Chars × Json))

/-- JSON string escapes accepted after a backslash. -/
def unescChar (c : Char) : Option Char :=
  if c = 'n' then some '\n'
  else if c = 't' then some '\t'
  else if c = 'r' then some '\r'
  else if c = '"' then some c
  else if c = '\\' then some c
  else if c = '/' then some c
  else if c = 'b' then some (Char.ofNat 8)
  else if c = 'f' then some (Char.ofNat 12)
  else none

/-- Parses the remainder of a JSON string after the opening quote.  The
flag records a pending backslash. -/
def pStrAux : Chars → Bool → Option (Chars × Chars)
  | [], _ => none
  | c :: rest, true =>
    match unescChar c with
    | some e => (pStrAux rest false).map (fun p => (e :: p.1, p.2))
    | none => none
  | c :: rest, false =>
    if c = '"' then some ([], rest)
    else if c = '\\' then pStrAux rest true
    else (pStrAux rest false).map (fun p => (c :: p.1, p.2))

/-- Skips JSON whitespace (the same four characters serde_json skips). -/
def skipWs : Chars → Chars
  | [] => []
  | c :: rest => if isWsChar c then skipWs rest else c :: rest

/-- Accumulates decimal digits. -/
def pNumAux : Chars → Nat → Nat × Chars
  | [], acc => (acc, [])
  | c :: rest, acc =>
    if c.isDigit then pNumAux rest (acc * 10 + (c.toNat - 48)) else (acc, c :: rest)

/-- Parses an integer literal (fractions and exponents are not modelled;
no claim exercises them). -/
def pNum : Chars → Option (Json × Chars)
  | [] => none
  | '-' :: rest =>
    match rest with
    | [] => none
    | c :: _ =>
      if c.isDigit then
        let r := pNumAux rest 0
        some (.num (-(r.1 : Int)), r.2)
      else none
  | c :: rest =>
    if c.isDigit then
      let r := pNumAux (c :: rest) 0
      some (.num (r.1 : Int), r.2)
    else none

/-- Parser modes: a value, the members of an object after its opening
brace, or the elements of an array after its opening bracket. -/
inductive PMode where
  | val
  | fields
  | elems

/-- Continuation of the object-member parse once the key and colon are
consumed: finish with the value parse's result, then a comma (more
members, via the recursion argument) or a closing brace. -/
def pAfterField (k : Chars) (recFields : Chars → Option (Json × Chars)) :
    Option (Json × Chars) → Option (Json × Chars)
  | none => none
  | some (v, r3) =>
    match skipWs r3 with
    | ',' :: r4 =>
      match recFields r4 with
      | some (Json.obj fs, r5) => some (Json.obj ((k, v) :: fs), r5)
      | _ => none
    | '}' :: r4 => some (Json.obj [(k, v)], r4)
    | _ => none

/-- Continuation of the array-element parse: finish with the value parse's
result, then a comma (more elements, via the recursion argument) or a
closing bracket. -/
def pAfterElem (recElems : Chars → Option (Json × Chars)) :
    Option (Json × Chars) → Option (Json × Chars)
  | none => none
  | some (v, r) =>
    match skipWs r with
    | ',' :: r2 =>
      match recElems r2 with
      | some (Json.arr xs, r3) => some (Json.arr (v :: xs), r3)
      | _ => none
    | ']' :: r2 => some (Json.arr [v], r2)
    | _ => none

/-- Fuel-indexed JSON parser.  Fuel strictly decreases on every recursive
call and every call consumes at least one character per two fuel units, so
twice the input length plus two is always sufficient. -/
def pJson : Nat → PMode → Chars → Option (Json × Chars)
  | 0, _, _ => none
  | fuel + 1, PMode.val, s =>
    match skipWs s with
    | '{' :: rest =>
      match skipWs rest with
      | '}' :: rest2 => some (.obj [], rest2)
      | rest2 => pJson fuel PMode.fields rest2
    | '[' :: rest =>
      match skipWs rest with
      | ']' :: rest2 => some (.arr [], rest2)
      | rest2 => pJson fuel PMode.elems rest2
    | '"' :: rest => (pStrAux rest false).map (fun p => (Json.str p.1, p.2))
    | 't' :: 'r' :: 'u' :: 'e' :: rest => some (.bool true, rest)
    | 'f' :: 'a' :: 'l' :: 's' :: 'e' :: rest => some (.bool false, rest)
    | 'n' :: 'u' :: 'l' :: 'l' :: rest => some (.null, rest)
    | s2 => pNum s2
  | fuel + 1, PMode.fields, s =>
    match skipWs s with
    | '"' :: rest =>
      match pStrAux rest false with
      | none => none
      | some (k, r1) =>
        match skipWs r1 with
        | ':' :: r2 =>
          pAfterField k (pJson fuel PMode.fields) (pJson fuel PMode.val r2)
        | _ => none
    | _ => none
  | fuel + 1, PMode.elems, s =>
    pAfterElem (pJson fuel PMode.elems) (pJson fuel PMode.val s)

/-- Models serde_json parsing of a complete document: one value, with only
whitespace allowed afterwards. -/
def parseJson (s : Chars) : Option Json :=
  match pJson (2 * s.length + 2) PMode.val s with
  | some (j, rest) => if skipWs rest = [] then some j else none
  | none => none

/-- First field with the given key of a JSON object's field list. -/
def jsonField (fs : List (Chars × Json)) (k : Chars) : Option Json :=
  match fs with
  | [] => none
  | f :: rest => if f.1 = k then some f.2 else jsonField rest k

def choicesKey : Chars := "choices".toList
def deltaKey : Chars := "delta".toList
def contentKey : Chars := "content".toList
def roleKey : Chars := "role".toList

/-- Models the serde Deserialize derive for Choice: an object with a
required "delta" object whose optional "content" must be a string (or
null/absent for None); unknown fields are ignored. -/
def choiceFromJson : Json → Option Choice
  | Json.obj fs =>
    match jsonField fs deltaKey with
    | some (Json.obj dfs) =>
      match jsonField dfs contentKey with
      | none => some ⟨⟨none⟩⟩
      | some (Json.str s) => some ⟨⟨some s⟩⟩
      | some Json.null => some ⟨⟨none⟩⟩
      | some _ => none
    | _ => none
  | _ => none

/-- Models the serde Deserialize derive for ChatCompletionChunk: an object
with a required "choices" array. -/
def chunkFromJson : Json → Option ChatCompletionChunk
  | Json.obj fs =>
    match jsonField fs choicesKey with
    | some (Json.arr xs) => (xs.mapM choiceFromJson).map ChatCompletionChunk.mk
    | _ => none
  | _ => none

/-- The model of serde_json::from_str::<ChatCompletionChunk> (client.rs
line 122). -/
def parseChunkData (s : Chars) : Option ChatCompletionChunk :=
  (parseJson s).bind chunkFromJson

/-! ### Serialization of Message records (serde Serialize / Deserialize) -/

/-- JSON escaping of one character, as serde_json emits it for the
characters the Message fields may contain (remaining control characters
are emitted raw by this model; the parser accepts them raw as well, so
the round trip is unaffected). -/
def escChar (c : Char) : Chars :=
  if c = '"' then ['\\', '"']
  else if c = '\\' then ['\\', '\\']
  else if c = '\n' then ['\\', 'n']
  else if c = '\t' then ['\\', 't']
  else if c = '\r' then ['\\', 'r']
  else [c]

def escapeChars (s : Chars) : Chars := s.flatMap escChar

/-- Models serde_json::to_string for a Message record: the two fields in
declaration order, string values escaped, no whitespace -
the shape is exactly a JSON text
of an object with string fields "role" and "content". -/
def renderMessage (m : Message) : Chars :=
  '{' :: ('"' :: (escapeChars roleKey ++ '"' :: (':' :: ('"' :: (escapeChars m.role
    ++ '"' :: (',' :: ('"' :: (escapeChars contentKey ++ '"' :: (':' :: ('"' ::
    (escapeChars m.content ++ '"' :: ('}' :: []))))))))))))

/-- Models the serde Deserialize derive for Message: an object with
required string fields "role" and "content". -/
def messageFromJson : Json → Option Message
  | Json.obj fs =>
    match jsonField fs roleKey with
    | some (Json.str r) =>
      match jsonField fs contentKey with
      | some (Json.str c) => some (Message.mk r c)
      | _ => none
    | _ => none
  | _ => none

/-- The model of serde_json::from_str::<Message>. -/
def parseMessage (s : Chars) : Option Message :=
  (parseJson s).bind messageFromJson

theorem pStrAux_esc (s : Chars) (rest : Chars) :
    pStrAux (escapeChars s ++ '"' :: rest) false = some (s, rest) := by
  induction s with
  | nil => simp [escapeChars, pStrAux]
  | cons c cs ih =>
    have hstep : escapeChars (c :: cs) = escChar c ++ escapeChars cs := by
      simp [escapeChars]
    rw [hstep]
    by_cases h1 : c = '"'
    · subst h1
      show (pStrAux (escapeChars cs ++ '"' :: rest) false).map
          (fun p => ('"' :: p.1, p.2)) = _
      rw [ih]
      rfl
    by_cases h2 : c = '\\'
    · subst h2
      show (pStrAux (escapeChars cs ++ '"' :: rest) false).map
          (fun p => ('\\' :: p.1, p.2)) = _
      rw [ih]
      rfl
    by_cases h3 : c = '\n'
    · subst h3
      show (pStrAux (escapeChars cs ++ '"' :: rest) false).map
          (fun p => ('\n' :: p.1, p.2)) = _
      rw [ih]
      rfl
    by_cases h4 : c = '\t'
    · subst h4
      show (pStrAux (escapeChars cs ++ '"' :: rest) false).map
          (fun p => ('\t' :: p.1, p.2)) = _
      rw [ih]
      rfl
    by_cases h5 : c = '\r'
    · subst h5
      show (pStrAux (escapeChars cs ++ '"' :: rest) false).map
          (fun p => ('\r' :: p.1, p.2)) = _
      rw [ih]
      rfl
    · have hesc : escChar c = [c] := by
        simp [escChar, h1, h2, h3, h4, h5]
      rw [hesc]
      have hstep2 : pStrAux (c :: (escapeChars cs ++ '"' :: rest)) false =
          (pStrAux (escapeChars cs ++ '"' :: rest) false).map
            (fun p => (c :: p.1, p.2)) := by
        simp only [pStrAux]
        rw [if_neg h1, if_neg h2]
      rw [List.singleton_append, List.cons_append, hstep2, ih]
      rfl

theorem pJson_val_str (fuel : Nat) (s rest : Chars) :
    pJson (fuel + 1) PMode.val ('"' :: (escapeChars s ++ '"' :: rest)) =
      some (Json.str s, rest) := by
  have h1 : pJson (fuel + 1) PMode.val ('"' :: (escapeChars s ++ '"' :: rest)) =
      (pStrAux (escapeChars s ++ '"' :: rest) false).map
        (fun p => (Json.str p.1, p.2)) := rfl
  rw [h1, pStrAux_esc]
  rfl

theorem pJson_fields_last (fuel : Nat) (c : Chars) :
    pJson (fuel + 2) PMode.fields
      ('"' :: (escapeChars contentKey ++ '"' :: (':' :: ('"' ::
        (escapeChars c ++ '"' :: ('}' :: [])))))) =
      some (Json.obj [(contentKey, Json.str c)], []) := by
  have h1 : pJson (fuel + 2) PMode.fields
      ('"' :: (escapeChars contentKey ++ '"' :: (':' :: ('"' ::
        (escapeChars c ++ '"' :: ('}' :: [])))))) =
      pAfterField contentKey (pJson (fuel + 1) PMode.fields)
        (pJson (fuel + 1) PMode.val
          ('"' :: (escapeChars c ++ '"' :: ('}' :: [])))) := rfl
  rw [h1, pJson_val_str]
  rfl

theorem pJson_fields_msg (fuel : Nat) (r c : Chars) :
    pJson (fuel + 3) PMode.fields
      ('"' :: (escapeChars roleKey ++ '"' :: (':' :: ('"' :: (escapeChars r ++ '"' ::
        (',' :: ('"' :: (escapeChars contentKey ++ '"' :: (':' :: ('"' ::
        (escapeChars c ++ '"' :: ('}' :: [])))))))))))) =
      some (Json.obj [(roleKey, Json.str r), (contentKey, Json.str c)], []) := by
  have h1 : pJson (fuel + 3) PMode.fields
      ('"' :: (escapeChars roleKey ++ '"' :: (':' :: ('"' :: (escapeChars r ++ '"' ::
        (',' :: ('"' :: (escapeChars contentKey ++ '"' :: (':' :: ('"' ::
        (escapeChars c ++ '"' :: ('}' :: [])))))))))))) =
      pAfterField roleKey (pJson (fuel + 2) PMode.fields)
        (pJson (fuel + 2) PMode.val ('"' :: (escapeChars r ++ '"' ::
          (',' :: ('"' :: (escapeChars contentKey ++ '"' :: (':' :: ('"' ::
          (escapeChars c ++ '"' :: ('}' :: [])))))))))) := rfl
  rw [h1, pJson_val_str (fuel + 1) r]
  have h2 : pAfterField roleKey (pJson (fuel + 2) PMode.fields)
      (some (Json.str r, ',' :: ('"' :: (escapeChars contentKey ++ '"' ::
        (':' :: ('"' :: (escapeChars c ++ '"' :: ('}' :: [])))))))) =
      match pJson (fuel + 2) PMode.fields ('"' :: (escapeChars contentKey ++ '"' ::
        (':' :: ('"' :: (escapeChars c ++ '"' :: ('}' :: [])))))) with
      | some (Json.obj fs, r5) => some (Json.obj ((roleKey, Json.str r) :: fs), r5)
      | _ => none := rfl
  rw [h2, pJson_fields_last fuel c]

theorem pJson_val_msg (fuel : Nat) (m : Message) :
    pJson (fuel + 4) PMode.val (renderMessage m) =
      some (Json.obj [(roleKey, Json.str m.role), (contentKey, Json.str m.content)],
        []) := by
  have h1 : pJson (fuel + 4) PMode.val (renderMessage m) =
      pJson (fuel + 3) PMode.fields ('"' :: (escapeChars roleKey ++ '"' ::
        (':' :: ('"' :: (escapeChars m.role ++ '"' :: (',' :: ('"' ::
        (escapeChars contentKey ++ '"' :: (':' :: ('"' ::
        (escapeChars m.content ++ '"' :: ('}' :: [])))))))))))) := rfl
  rw [h1, pJson_fields_msg fuel m.role m.content]

theorem parse_renderMessage (m : Message) :
    parseJson (renderMessage m) =
      some (Json.obj [(roleKey, Json.str m.role),
        (contentKey, Json.str m.content)]) := by
  unfold parseJson
  have hL : 1 ≤ (renderMessage m).length := by
    unfold renderMessage
    simp
  rw [show 2 * (renderMessage m).length + 2 =
        (2 * (renderMessage m).length - 2) + 4 from by omega,
    pJson_val_msg]
  rfl

theorem runEvents_errAt (sink : Sink) (es : List SSEEvent) (k : Nat)
    (e : StreamError) (hc : Bool) (n : Nat)
    (hk : k < (deltasUpTo es).length)
    (hok : ∀ j, j < k → sink (n + j) = none)
    (herr : sink (n + k) = some e) :
    runEvents sink es hc n =
      (((deltasUpTo es).take (k + 1)).map chunkCall ++ errTailCalls e,
       .halt (errResult e)) := by
  induction es generalizing k hc n with
  | nil => simp [deltasUpTo] at hk
  | cons ev rest ih =>
    cases ev with
    | done => simp [deltasUpTo] at hk
    | delta t =>
      cases k with
      | zero =>
        have h0 : sink n = some e := by simpa using herr
        cases e with
        | streamCancelled =>
          simp [runEvents, h0, deltasUpTo, chunkCall, errTailCalls, errResult]
        | other m =>
          simp [runEvents, h0, deltasUpTo, chunkCall, errTailCalls, errResult]
      | succ k2 =>
        have h0 : sink n = none := by
          have := hok 0 (Nat.succ_pos k2)
          simpa using this
        have hok2 : ∀ j, j < k2 → sink (n + 1 + j) = none := by
          intro j hj
          have := hok (j + 1) (by omega)
          rwa [show n + (j + 1) = n + 1 + j by omega] at this
        have herr2 : sink (n + 1 + k2) = some e := by
          rwa [show n + (k2 + 1) = n + 1 + k2 by omega] at herr
        have hk2 : k2 < (deltasUpTo rest).length := by
          simpa [deltasUpTo] using hk
        simp [runEvents, h0, deltasUpTo, chunkCall,
          ih k2 true (n + 1) hk2 hok2 herr2]


/-! ### History extraction (src/src/history/processor.rs) and message
building (src/src/plugin.rs) -/

/-- A history entry as delivered by the host (plugin_interfaces
HistoryMessage, the fields the pipeline reads). -/
structure HistoryMessage where
  role : Chars
  content : Chars
  status : Chars
deriving DecidableEq

def completedStatus : Chars := "completed".toList
def userRole : Chars := "user".toList
def assistantRole : Chars := "assistant".toList
def systemRole : Chars := "system".toList
def pluginRole : Chars := "plugin".toList

/-- The role match of processor.rs lines 27-38: user, plugin (the
assistant-equivalent role), system, and unknown roles mapped to user with
a logged diagnostic. -/
def mapRole (role : Chars) : Chars :=
  if role = userRole then userRole
  else if role = pluginRole then assistantRole
  else if role = systemRole then systemRole
  else userRole

/-- Embedding of HistoryProcessor::extract_completed_messages
(src/src/history/processor.rs lines 8-51): keep entries whose status is
"completed", then keep those with non-whitespace content, converting each
with the role map. -/
def extract_completed_messages (history : List HistoryMessage) : List Message :=
  ((history.filter (fun m => m.status == completedStatus)).filter
      (fun m => !trimIsEmpty m.content)).map
    (fun m => Message.mk (mapRole m.role) m.content)

/-- Embedding of the message-list construction of
DeepSeekPlugin::send_streaming_request (src/src/plugin.rs lines 82-96):
extracted history messages (empty when no history is available) followed
by the current user message, always last. -/
def buildMessages (history : Option (List HistoryMessage)) (message : Chars) :
    List Message :=
  (match history with
   | some h => extract_completed_messages h
   | none => []) ++ [Message.mk userRole message]

/-- Rendering of claim C8's own words: the role map it states. -/
def specRoleMap (role : Chars) : Chars :=
  if role = userRole then userRole
  else if role = pluginRole then assistantRole
  else if role = systemRole then systemRole
  else userRole

/-- Rendering of claim C8's own words: history entries with status
"completed" and non-whitespace content, in their original order, roles
mapped, followed by the current user turn as the last element. -/
def specMessageList (history : List HistoryMessage) (current : Chars) :
    List Message :=
  (history.filter
      (fun m => m.status == completedStatus && !trimIsEmpty m.content)).map
    (fun m => Message.mk (specRoleMap m.role) m.content)
    ++ [Message.mk userRole current]

theorem specRoleMap_eq_mapRole : specRoleMap = mapRole := rfl

/-! ### Configuration (src/src/config.rs, src/src/plugin.rs) -/

/-- The stored user configuration table (config.rs lines 5-10). -/
structure UserConfig where
  api_key : Option Chars
  api_url : Option Chars
deriving DecidableEq

def defaultApiUrl : Chars :=
  "https://api.deepseek.com/v1/chat/completions".toList

/-- UserConfig::default (config.rs lines 12-19): no key, the canonical
default endpoint. -/
def UserConfig.defaultCfg : UserConfig := ⟨none, some defaultApiUrl⟩

/-- The configuration file contents.  The opaque toml plugin table
(config.rs line 24) is carried through save untouched and never read by
load_user_config, so it is left out of the model. -/
structure Config where
  user : Option UserConfig
deriving DecidableEq

/-- Embedding of ConfigManager::save_user_config (src/src/config.rs lines
73-120).  The first argument is the outcome of reading the existing file
(none when the read fails, in which case a default configuration is
created); the result is the new file contents.  Whitespace-only values are
stored as absent. -/
def save_user_config (loaded : Option Config) (api_key api_url : Chars) : Config :=
  let base :=
    match loaded with
    | some c => c
    | none => Config.mk (some UserConfig.defaultCfg)
  { base with
    user := some (UserConfig.mk
      (if trimIsEmpty api_key then none else some api_key)
      (if trimIsEmpty api_url then none else some api_url)) }

/-- Embedding of ConfigManager::load_user_config (src/src/config.rs lines
54-70): the stored user table, or the defaults when the file or table is
missing. -/
def load_user_config (loaded : Option Config) : UserConfig :=
  match loaded with
  | some c =>
    match c.user with
    | some u => u
    | none => UserConfig.defaultCfg
  | none => UserConfig.defaultCfg

/-- Embedding of DeepSeekPlugin::load_user_config (src/src/plugin.rs lines
56-68): each present value replaces the plugin's current one; an absent
value leaves the current one unchanged.  The plugin starts with an empty
key and the canonical default endpoint (plugin.rs lines 31-32). -/
def applyUserConfig (currentKey currentUrl : Chars) (u : UserConfig) :
    Chars × Chars :=
  ((match u.api_key with
    | some k => k
    | none => currentKey),
   (match u.api_url with
    | some url => url
    | none => currentUrl))

/-! ### Concrete inputs used by witnesses and counterexamples -/

/-- A well-formed provider payload carrying the delta "Hi". -/
def payloadHi : Chars :=
  "\x7b\"choices\":[\x7b\"delta\":\x7b\"content\":\"Hi\"\x7d\x7d]\x7d".toList

/-- A well-formed provider payload carrying the delta "llo". -/
def payloadLo : Chars :=
  "\x7b\"choices\":[\x7b\"delta\":\x7b\"content\":\"llo\"\x7d\x7d]\x7d".toList

/-- A payload that is not valid JSON. -/
def badPayload : Chars := "oops".toList

/-- A sink whose streamChunk always succeeds. -/
def allOkSink : Sink := fun _ => none

/-- A sink whose streamChunk reports cancellation on the first call. -/
def cancelAtZeroSink : Sink := fun j =>
  if j = 0 then some StreamError.streamCancelled else none

def okStart : Except Chars Chars := Except.ok "stream_001".toList

def c1WholeInp : SessionInput :=
  ⟨"k".toList, true, 200, [], [framesOf [payloadHi]], okStart, allOkSink,
   parseChunkData⟩

/-- The same byte stream as c1WholeInp, split into two chunks with the
boundary falling inside the JSON payload of the single event. -/
def c1SplitInp : SessionInput :=
  ⟨"k".toList, true, 200, [],
   [(framesOf [payloadHi]).take 20, (framesOf [payloadHi]).drop 20], okStart,
   allOkSink, parseChunkData⟩

def c2Inp : SessionInput :=
  ⟨"k".toList, true, 200, [], [framesOf [payloadHi, payloadLo]], okStart,
   cancelAtZeroSink, parseChunkData⟩

def c3Inp : SessionInput :=
  ⟨"k".toList, true, 200, [], [framesOf [payloadHi, doneMark, payloadLo]],
   okStart, allOkSink, parseChunkData⟩

def c4Inp : SessionInput :=
  ⟨"k".toList, true, 200, [], [framesOf [payloadHi, badPayload, payloadLo]],
   okStart, allOkSink, parseChunkData⟩

def c5Inp : SessionInput :=
  ⟨"k".toList, true, 200, [], [framesOf [badPayload]], okStart, allOkSink,
   parseChunkData⟩

def c5WitInp : SessionInput :=
  ⟨"k".toList, true, 200, [], [framesOf [payloadHi]], okStart, allOkSink,
   parseChunkData⟩

def c6Inp : SessionInput :=
  ⟨" \t ".toList, true, 200, [], [framesOf [payloadHi]], okStart, allOkSink,
   parseChunkData⟩

def c7Inp401 : SessionInput :=
  ⟨"k".toList, true, 401, "Unauthorized".toList, [framesOf [payloadHi]],
   okStart, allOkSink, parseChunkData⟩

def c7Inp500 : SessionInput :=
  ⟨"k".toList, true, 500, "Unauthorized".toList, [framesOf [payloadHi]],
   okStart, allOkSink, parseChunkData⟩

/-- True for a streamEnd invocation. -/
def isStreamEnd : SinkCall → Bool
  | SinkCall.streamEnd _ _ => true
  | _ => false

theorem filter_isStreamEnd_chunkCalls (ds : List Chars) :
    (ds.map chunkCall).filter isStreamEnd = [] := by
  induction ds with
  | nil => rfl
  | cons d rest ih => simp [chunkCall, isStreamEnd, ih]

/-! ### Claim C1 -/

/-- Claim C1 counterexample: the decode loop keeps no buffer across
chunks, so the claim as stated is false.  The same single-event byte
stream (one complete "data: ..." frame with its blank-line terminator)
delivered whole emits the delta "Hi", but delivered split at a boundary
inside the JSON payload
emits no delta at all: the session ends with the no-content streamEnd
instead.  The third conjunct checks both inputs carry the same bytes. -/
theorem claim_C1_cex :
    c1SplitInp.chunks.flatten = c1WholeInp.chunks.flatten ∧
    sendStreamingRequest c1WholeInp =
      ([SinkCall.start, SinkCall.chunk ['H', 'i'] false,
        SinkCall.streamEnd true none], .ok) ∧
    sendStreamingRequest c1SplitInp =
      ([SinkCall.start, SinkCall.streamEnd false (some noReplyMsg)], .ok) :=
  ⟨by decide, by decide, by decide⟩

/-- Claim C1 (amended): chunk-split invariance holds for splits aligned to
frame boundaries.  For any two chunkings of the same sequence of framed
payloads (payloads free of newlines, each chunk a concatenation of whole
"data: p\n\n" frames), the session emits identical sink traces and
results: the decoder emits the same events, in the same order, with
identical payload text.  Splits inside a frame are not invariant (see the
counterexample), because the final incomplete segment of a chunk is
processed immediately and discarded, not retained in a buffer. -/
theorem claim_C1_amended (apiKey : Chars) (cinit : Bool) (status : Nat)
    (body : Chars) (startRes : Except Chars Chars) (sink : Sink)
    (parse : Chars → Option ChatCompletionChunk)
    (pss qss : List (List Chars))
    (hsame : pss.flatten = qss.flatten)
    (hnl : ∀ p ∈ pss.flatten, ('\n' : Char) ∉ p) :
    sendStreamingRequest
        ⟨apiKey, cinit, status, body, pss.map framesOf, startRes, sink, parse⟩ =
      sendStreamingRequest
        ⟨apiKey, cinit, status, body, qss.map framesOf, startRes, sink, parse⟩ := by
  rw [send_eq_spec, send_eq_spec]
  unfold sessionSpec
  dsimp only
  rw [streamEvents_frames parse pss hnl,
    streamEvents_frames parse qss (by rw [← hsame]; exact hnl), hsame]

/-- Witness for the amended claim C1: two frames split two-per-chunk
versus one-per-chunk give the same trace and result. -/
theorem claim_C1_amended_witness :
    sendStreamingRequest
        ⟨"k".toList, true, 200, [],
         ([[payloadHi], [payloadLo]] : List (List Chars)).map framesOf, okStart,
         allOkSink, parseChunkData⟩ =
      sendStreamingRequest
        ⟨"k".toList, true, 200, [],
         ([[payloadHi, payloadLo]] : List (List Chars)).map framesOf, okStart,
         allOkSink, parseChunkData⟩ :=
  claim_C1_amended "k".toList true 200 [] okStart allOkSink parseChunkData
    [[payloadHi], [payloadLo]] [[payloadHi, payloadLo]] (by decide) (by decide)

/-! ### Claim C2 -/

/-- A sink whose streamChunk fails the first call with a non-cancellation
error displayed as "boom". -/
def errAtZeroSink : Sink := fun j =>
  if j = 0 then some (StreamError.other "boom".toList) else none

def c2ErrInp : SessionInput :=
  ⟨"k".toList, true, 200, [], [framesOf [payloadHi, payloadLo]], okStart,
   errAtZeroSink, parseChunkData⟩

/-- Claim C2 counterexample: for a non-cancellation streamChunk error the
code does call streamEnd(success=false) and return the error, but the
error argument it passes is the message prefixed with "Error: "
(client.rs line 146), not the bare message the claim states: with a sink
failing the first delivery with message "boom", streamEnd receives
"Error: boom", which differs from "boom". -/
theorem claim_C2_cex :
    sendStreamingRequest c2ErrInp =
      ([SinkCall.start, SinkCall.chunk ['H', 'i'] false,
        SinkCall.streamEnd false (some (errorTag ++ "boom".toList))],
       SessionResult.fail "boom".toList) ∧
    ¬(errorTag ++ "boom".toList = "boom".toList) :=
  ⟨by decide, by decide⟩

/-- Claim C2 (amended): when the streamChunk sink answers the k-th
delivery with an error - all earlier deliveries succeeding, and at least
k+1 deltas decoded before any sentinel - the session stops at that
delivery.  On the distinguished cancellation error
(StreamError.streamCancelled) the trace ends with that chunk call -
streamEnd is never called afterwards - and the function returns success;
on any other error exactly one
streamEnd(success=false, error="Error: " ++ message) follows - the
message prefixed with "Error: ", not the bare message - and the error is
returned to the caller. -/
theorem claim_C2 (inp : SessionInput) (e : StreamError) (k : Nat)
    (hkey : trimIsEmpty inp.apiKey = false) (hcl : inp.clientInitialized = true)
    (hst : statusIsSuccess inp.status = true) (sid : Chars)
    (hstart : inp.startResult = Except.ok sid)
    (hok : ∀ j, j < k → inp.sink j = none) (herr : inp.sink k = some e)
    (hk : k < (deltasUpTo (streamEvents inp.parse inp.chunks)).length) :
    sendStreamingRequest inp =
      (SinkCall.start ::
        (((deltasUpTo (streamEvents inp.parse inp.chunks)).take (k + 1)).map
            chunkCall ++ errTailCalls e),
       errResult e) := by
  rw [sessionSpec_open inp hkey hcl hst sid hstart,
    runEvents_errAt inp.sink _ k e false 0 hk
      (by intro j hj; simpa using hok j hj) (by simpa using herr)]

/-- Witness for the amended claim C2 on the cancellation side: a
two-delta stream whose sink cancels the first delivery yields exactly the
start call and that one chunk call, no streamEnd, and an Ok result (the
other-error side is exercised by the counterexample's input). -/
theorem claim_C2_witness :
    sendStreamingRequest c2Inp =
      (SinkCall.start ::
        (((deltasUpTo (streamEvents c2Inp.parse c2Inp.chunks)).take (0 + 1)).map
            chunkCall ++ errTailCalls StreamError.streamCancelled),
       errResult StreamError.streamCancelled) :=
  claim_C2 c2Inp StreamError.streamCancelled 0 (by decide) rfl (by decide)
    "stream_001".toList rfl (fun j hj => absurd hj (Nat.not_lt_zero j)) rfl
    (by decide)

/-! ### Claim C3 -/

/-- Claim C3: when the decoded event stream reaches a "[DONE]" sentinel -
the events before it free of sentinels and all their deliveries accepted
by the sink - the sentinel produces no delta, exactly one
streamEnd(success=true, error=none) is emitted, the function returns
success, and nothing decoded after the sentinel (es₂ - later events of the
same chunk or pending chunks) contributes to the trace. -/
theorem claim_C3 (inp : SessionInput)
    (hkey : trimIsEmpty inp.apiKey = false) (hcl : inp.clientInitialized = true)
    (hst : statusIsSuccess inp.status = true) (sid : Chars)
    (hstart : inp.startResult = Except.ok sid)
    (es₁ es₂ : List SSEEvent)
    (hdec : streamEvents inp.parse inp.chunks = es₁ ++ SSEEvent.done :: es₂)
    (hnd : SSEEvent.done ∉ es₁)
    (hsink : ∀ j, j < (deltaTexts es₁).length → inp.sink j = none) :
    sendStreamingRequest inp =
      (SinkCall.start ::
        ((deltaTexts es₁).map chunkCall ++ [SinkCall.streamEnd true none]),
       SessionResult.ok) ∧
    ((sendStreamingRequest inp).1.filter isStreamEnd).length = 1 := by
  have hrun := runEvents_done inp.sink es₁ es₂ hnd false 0
    (by intro j hj; simpa using hsink j hj)
  have hmain : sendStreamingRequest inp =
      (SinkCall.start ::
        ((deltaTexts es₁).map chunkCall ++ [SinkCall.streamEnd true none]),
       SessionResult.ok) := by
    rw [sessionSpec_open inp hkey hcl hst sid hstart, hdec, hrun]
  refine ⟨hmain, ?_⟩
  rw [hmain]
  simp [isStreamEnd, filter_isStreamEnd_chunkCalls]

/-- Witness for claim C3: a stream of one delta, the sentinel, then one
more (ignored) event yields the chunk call, one successful streamEnd, and
an Ok result. -/
theorem claim_C3_witness :
    sendStreamingRequest c3Inp =
      (SinkCall.start ::
        ((deltaTexts [SSEEvent.delta ['H', 'i']]).map chunkCall ++
          [SinkCall.streamEnd true none]),
       SessionResult.ok) ∧
    ((sendStreamingRequest c3Inp).1.filter isStreamEnd).length = 1 :=
  claim_C3 c3Inp (by decide) rfl (by decide) "stream_001".toList rfl
    [SSEEvent.delta ['H', 'i']] [SSEEvent.delta ['l', 'l', 'o']] (by decide)
    (by decide) (fun j hj => rfl)

/-! ### Claim C4 -/

theorem payloadEvents_parse (parse : Chars → Option ChatCompletionChunk)
    (p : Chars) (cd : ChatCompletionChunk)
    (hd : ¬(p = doneMark)) (hp : parse p = some cd) :
    payloadEvents parse p = (choiceTexts cd.choices).map SSEEvent.delta := by
  unfold payloadEvents lineEvents
  rw [dropDataMark_mark]
  simp [hd, hp]

theorem payloadEvents_skip (parse : Chars → Option ChatCompletionChunk)
    (p : Chars) (hd : ¬(p = doneMark)) (hp : parse p = none) :
    payloadEvents parse p = [] := by
  unfold payloadEvents lineEvents
  rw [dropDataMark_mark]
  simp [hd, hp]

/-- Claim C4: a stream of three framed payloads where the middle one fails
to parse and the outer two parse to one delta each is non-fatal for the
malformed one: the sink receives exactly the two deltas of the well-formed
events, the session continues to its normal end-of-stream finish, and the
function returns success - a single malformed event never terminates or
aborts the session. -/
theorem claim_C4 (inp : SessionInput) (p₁ p₂ p₃ : Chars)
    (c₁ c₃ : ChatCompletionChunk) (d₁ d₃ : Chars)
    (hkey : trimIsEmpty inp.apiKey = false) (hcl : inp.clientInitialized = true)
    (hst : statusIsSuccess inp.status = true) (sid : Chars)
    (hstart : inp.startResult = Except.ok sid)
    (hchunks : inp.chunks = [framesOf [p₁, p₂, p₃]])
    (hnl₁ : ('\n' : Char) ∉ p₁) (hnl₂ : ('\n' : Char) ∉ p₂)
    (hnl₃ : ('\n' : Char) ∉ p₃)
    (hd₁ : ¬(p₁ = doneMark)) (hd₂ : ¬(p₂ = doneMark)) (hd₃ : ¬(p₃ = doneMark))
    (hp₁ : inp.parse p₁ = some c₁) (ht₁ : choiceTexts c₁.choices = [d₁])
    (hp₂ : inp.parse p₂ = none)
    (hp₃ : inp.parse p₃ = some c₃) (ht₃ : choiceTexts c₃.choices = [d₃])
    (hsink : ∀ j, inp.sink j = none) :
    sendStreamingRequest inp =
      (SinkCall.start :: [SinkCall.chunk d₁ false, SinkCall.chunk d₃ false,
        SinkCall.streamEnd true none], SessionResult.ok) := by
  have hmem : ∀ p ∈ ([[p₁, p₂, p₃]] : List (List Chars)).flatten,
      ('\n' : Char) ∉ p := by
    intro p hp
    simp only [List.flatten_cons, List.flatten_nil, List.append_nil,
      List.mem_cons, List.mem_singleton] at hp
    rcases hp with rfl | rfl | rfl | h
    · exact hnl₁
    · exact hnl₂
    · exact hnl₃
    · exact absurd h (List.not_mem_nil p)
  have hev : streamEvents inp.parse inp.chunks =
      [SSEEvent.delta d₁, SSEEvent.delta d₃] := by
    rw [hchunks,
      show [framesOf [p₁, p₂, p₃]] =
        ([[p₁, p₂, p₃]] : List (List Chars)).map framesOf from rfl,
      streamEvents_frames inp.parse [[p₁, p₂, p₃]] hmem]
    simp only [List.flatten_cons, List.flatten_nil, List.append_nil,
      List.flatMap_cons, List.flatMap_nil,
      payloadEvents_parse inp.parse p₁ c₁ hd₁ hp₁, ht₁,
      payloadEvents_skip inp.parse p₂ hd₂ hp₂,
      payloadEvents_parse inp.parse p₃ c₃ hd₃ hp₃, ht₃]
    rfl
  obtain ⟨m, hm⟩ := runEvents_ok inp.sink [SSEEvent.delta d₁, SSEEvent.delta d₃]
    (by intro h; simp at h) hsink false 0
  rw [sessionSpec_open inp hkey hcl hst sid hstart, hev, hm]
  simp [deltaTexts, chunkCall, finishCalls]

/-- Witness for claim C4: "Hi" then the unparsable "oops" then "llo" in
one chunk yields exactly the two deltas and a successful finish. -/
theorem claim_C4_witness :
    sendStreamingRequest c4Inp =
      (SinkCall.start :: [SinkCall.chunk ['H', 'i'] false,
        SinkCall.chunk ['l', 'l', 'o'] false,
        SinkCall.streamEnd true none], SessionResult.ok) :=
  claim_C4 c4Inp payloadHi badPayload payloadLo
    ⟨[⟨⟨some ['H', 'i']⟩⟩]⟩ ⟨[⟨⟨some ['l', 'l', 'o']⟩⟩]⟩
    ['H', 'i'] ['l', 'l', 'o']
    (by decide) rfl (by decide) "stream_001".toList rfl rfl
    (by decide) (by decide) (by decide)
    (by decide) (by decide) (by decide)
    (by decide) (by decide) (by decide) (by decide) (by decide)
    (fun j => rfl)

/-! ### Claim C5 -/

/-- Claim C5 counterexample: when the transport closes after one chunk
with no sentinel and no content was delivered, the code does call
streamEnd(success=false) and return success, but the error literal it
passes is the code's "未收到有效回复", not the string "no content
received" the claim states. -/
theorem claim_C5_cex :
    sendStreamingRequest c5Inp =
      ([SinkCall.start, SinkCall.streamEnd false (some noReplyMsg)],
       SessionResult.ok) ∧
    ¬(noReplyMsg = "no content received".toList) :=
  ⟨by decide, by decide⟩

/-- Claim C5 (amended): when the byte stream ends without a "[DONE]"
sentinel ever decoded and every delivery is accepted, the session emits
all decoded deltas and finishes with streamEnd(success=true, error=none)
when at least one delta was delivered, or
streamEnd(success=false, error="未收到有效回复" - the code's no-content
message, meaning "no valid reply received") when none was; in both cases
the function returns success. -/
theorem claim_C5_amended (inp : SessionInput)
    (hkey : trimIsEmpty inp.apiKey = false) (hcl : inp.clientInitialized = true)
    (hst : statusIsSuccess inp.status = true) (sid : Chars)
    (hstart : inp.startResult = Except.ok sid)
    (hnd : SSEEvent.done ∉ streamEvents inp.parse inp.chunks)
    (hsink : ∀ j, inp.sink j = none) :
    (¬(deltaTexts (streamEvents inp.parse inp.chunks) = []) →
      sendStreamingRequest inp =
        (SinkCall.start ::
          ((deltaTexts (streamEvents inp.parse inp.chunks)).map chunkCall ++
            [SinkCall.streamEnd true none]), SessionResult.ok)) ∧
    (deltaTexts (streamEvents inp.parse inp.chunks) = [] →
      sendStreamingRequest inp =
        ([SinkCall.start, SinkCall.streamEnd false (some noReplyMsg)],
         SessionResult.ok)) := by
  obtain ⟨m, hm⟩ := runEvents_ok inp.sink (streamEvents inp.parse inp.chunks)
    hnd hsink false 0
  constructor
  · intro hne
    rw [sessionSpec_open inp hkey hcl hst sid hstart, hm]
    have hfl : (deltaTexts (streamEvents inp.parse inp.chunks)).isEmpty = false := by
      rcases hdl : deltaTexts (streamEvents inp.parse inp.chunks) with _ | ⟨a, l⟩
      · exact absurd hdl hne
      · rfl
    simp [finishCalls, hfl]
  · intro he
    rw [sessionSpec_open inp hkey hcl hst sid hstart, hm, he]
    simp [finishCalls]

/-- Witness for the amended claim C5, content side: one delta and no
sentinel ends with streamEnd(success=true). -/
theorem claim_C5_witness :
    sendStreamingRequest c5WitInp =
      (SinkCall.start ::
        ((deltaTexts (streamEvents c5WitInp.parse c5WitInp.chunks)).map chunkCall ++
          [SinkCall.streamEnd true none]), SessionResult.ok) :=
  (claim_C5_amended c5WitInp (by decide) rfl (by decide) "stream_001".toList rfl
    (by decide) (fun j => rfl)).1 (by decide)

/-! ### Claim C6 -/

/-- Claim C6: a whitespace-only (or empty) apiKey fails the session with
the configuration error before anything else happens: the sink trace is
empty (streamStart never called) and the result does not depend on any
other input - in particular no part of the HTTP response is examined,
modelling that no request is issued. -/
theorem claim_C6 (inp : SessionInput) (h : trimIsEmpty inp.apiKey = true) :
    sendStreamingRequest inp = ([], SessionResult.fail apiKeyUnsetMsg) := by
  unfold sendStreamingRequest
  simp [h]

/-- Witness for claim C6: a whitespace-only key. -/
theorem claim_C6_witness :
    sendStreamingRequest c6Inp = ([], SessionResult.fail apiKeyUnsetMsg) :=
  claim_C6 c6Inp (by decide)

/-! ### Claim C7 -/

/-- Claim C7 counterexample: two responses with different non-2xx statuses
(401 and 500) but the same body text produce the same error value, so the
error cannot carry the response status, contradicting the claim that the
returned error carries both the status and the body. -/
theorem claim_C7_cex :
    sendStreamingRequest c7Inp401 =
      ([], SessionResult.fail (httpFailTag ++ "Unauthorized".toList)) ∧
    sendStreamingRequest c7Inp500 =
      ([], SessionResult.fail (httpFailTag ++ "Unauthorized".toList)) ∧
    ¬(c7Inp401.status = c7Inp500.status) :=
  ⟨by decide, by decide, by decide⟩

/-- Claim C7 (amended): for every non-2xx response, the session returns an
error carrying the response body text as diagnostic detail (the status is
not part of the error), issues no retry (the embedded session performs a
single exchange), and never invokes any sink callback: the trace is
empty. -/
theorem claim_C7_amended (inp : SessionInput)
    (hkey : trimIsEmpty inp.apiKey = false) (hcl : inp.clientInitialized = true)
    (hbad : statusIsSuccess inp.status = false) :
    sendStreamingRequest inp =
      ([], SessionResult.fail (httpFailTag ++ inp.body)) := by
  unfold sendStreamingRequest
  simp [hkey, hcl, hbad]

/-- Witness for the amended claim C7 at status 401. -/
theorem claim_C7_witness :
    sendStreamingRequest c7Inp401 =
      ([], SessionResult.fail (httpFailTag ++ c7Inp401.body)) :=
  claim_C7_amended c7Inp401 (by decide) rfl (by decide)

/-! ### Claim C8 -/

/-- Claim C8: the request's message list equals the history entries with
status "completed" and non-whitespace content, in their original order,
with roles mapped (user to user, the assistant-equivalent role "plugin" to
assistant, system to system, unknown roles to user), followed by the
current user turn as the last element - the code's construction refines
the claim's own description (specMessageList). -/
theorem claim_C8 (h : List HistoryMessage) (msg : Chars) :
    buildMessages (some h) msg = specMessageList h msg := by
  show extract_completed_messages h ++ [Message.mk userRole msg] =
    specMessageList h msg
  unfold specMessageList extract_completed_messages
  rw [specRoleMap_eq_mapRole]
  congr 1
  rw [List.filter_filter]
  congr 1
  exact List.filter_congr (fun a _ => Bool.and_comm _ _)

/-! ### Claim C9 -/

/-- Claim C9: serializing any Message record to its JSON text and parsing
that text back yields the identical record - round trip identity on role
and content, covering in particular the record with role "user" and
content "hi". -/
theorem claim_C9 (m : Message) : parseMessage (renderMessage m) = some m := by
  unfold parseMessage
  rw [parse_renderMessage]
  rfl

/-! ### Claim C10 -/

/-- Claim C10: save_user_config stores a whitespace-only apiKey or apiUrl
as absent (None) rather than as the literal string; consequently, after
saving a whitespace-only apiUrl a subsequent load followed by the plugin's
config application yields the canonical default endpoint, and after saving
a whitespace-only apiKey the load yields no apiKey and the plugin's key
stays empty - which keeps streaming blocked (claim C6's guard). -/
theorem claim_C10 (loaded : Option Config) (k u : Chars) :
    (save_user_config loaded k u).user =
      some (UserConfig.mk (if trimIsEmpty k then none else some k)
        (if trimIsEmpty u then none else some u)) ∧
    (trimIsEmpty u = true →
      (applyUserConfig [] defaultApiUrl
        (load_user_config (some (save_user_config loaded k u)))).2 =
        defaultApiUrl) ∧
    (trimIsEmpty k = true →
      (load_user_config (some (save_user_config loaded k u))).api_key = none ∧
      (applyUserConfig [] defaultApiUrl
        (load_user_config (some (save_user_config loaded k u)))).1 = []) := by
  refine ⟨?_, ?_, ?_⟩
  · cases loaded <;> rfl
  · intro hu
    cases loaded <;>
      simp [save_user_config, load_user_config, applyUserConfig, hu]
  · intro hk
    cases loaded <;>
      exact ⟨by simp [save_user_config, load_user_config, applyUserConfig, hk],
        by simp [save_user_config, load_user_config, applyUserConfig, hk]⟩

/-- Witness for claim C10 at a whitespace-only key and url with no
existing configuration file. -/
theorem claim_C10_witness :
    (load_user_config (some (save_user_config none " ".toList "\t".toList))).api_key
      = none ∧
    (applyUserConfig [] defaultApiUrl
      (load_user_config (some (save_user_config none " ".toList "\t".toList)))).2 =
      defaultApiUrl := by
  have h := claim_C10 none " ".toList "\t".toList
  exact ⟨(h.2.2 (by decide)).1, h.2.1 (by decide)⟩
